import Mathlib

/-!
Shallow embedding of the EduTrack topic/student rating engine (src/app.py).

The engine state is the Streamlit session state of the source: the roster
(`students`), the staged student-name input, the three index-aligned topic
sequences (`topics`, `ratings`, `edit_modes`), and the two deletion flags
(`pending_delete_topic`, armed; `delete_topic_index`, authorized).  Each
source function that mutates the session state becomes a pure function on
`EngineState`; chart generators become pure functions returning the data
series they plot.  Python `del list[i]` is `List.eraseIdx`, `list[i] = x`
is `List.set`, `list.index(x)` is `List.findIdx`, `x in list` is list
membership; out-of-range indexing raises `IndexError` in Python before any
mutation, and is modelled as leaving the state unchanged where it can arise.
-/

/-- Constant `DEFAULT_TOPIC` of app.py. -/
def DEFAULT_TOPIC : String := "Topic 1"

/-- Constant `DEFAULT_RATING` of app.py. -/
def DEFAULT_RATING : String := "-"

/-- Constant `MAX_STUDENT_NAME_LENGTH` of app.py. -/
def MAX_STUDENT_NAME_LENGTH : Nat := 128

/-- One student record, as appended by `add_student`: the dict
`{"Name": ..., "Topics": ..., "Ratings": ...}`. -/
structure Student where
  Name : String
  Topics : List String
  Ratings : List Nat
deriving DecidableEq

/-- The engine's session state (`initialize_session_state` lists the fields). -/
structure EngineState where
  students : List Student
  student_name : String
  topics : List String
  ratings : List String
  edit_modes : List Bool
  delete_topic_index : Option Nat
  pending_delete_topic : Option Nat
deriving DecidableEq

/-- The initial session state set up by `initialize_session_state`. -/
def initialState : EngineState :=
  { students := []
    student_name := ""
    topics := [DEFAULT_TOPIC]
    ratings := [DEFAULT_RATING]
    edit_modes := [false]
    delete_topic_index := none
    pending_delete_topic := none }

/-- Source `toggle_edit_mode(index)`: flips the edit flag at `index`.  The
widget buffer `edit_{index}` it seeds belongs to the presentation layer; the
buffer's content reaches the engine as the argument of `confirm_topic_edit`. -/
def toggle_edit_mode (s : EngineState) (index : Nat) : EngineState :=
  { s with edit_modes := s.edit_modes.set index (!(s.edit_modes.getD index false)) }

/-- Source `confirm_topic_edit(index)`: writes the edit buffer into the topic
name and leaves edit mode.  `newName` stands for the buffer `edit_{index}`. -/
def confirm_topic_edit (s : EngineState) (index : Nat) (newName : String) : EngineState :=
  { s with topics := s.topics.set index newName
           edit_modes := s.edit_modes.set index false }

/-- Source `map_rating(rating)`: the dict lookup
`{'+': 10, '~': 5, '-': 0}.get(rating, 0)`. -/
def map_rating (rating : String) : Nat :=
  if rating = "+" then 10
  else if rating = "~" then 5
  else if rating = "-" then 0
  else 0

/-- Source `add_new_topic()`: appends `f"Topic {len(topics) + 1}"` with the
default rating and edit flag. -/
def add_new_topic (s : EngineState) : EngineState :=
  { s with topics := s.topics ++ ["Topic " ++ toString (s.topics.length + 1)]
           ratings := s.ratings ++ [DEFAULT_RATING]
           edit_modes := s.edit_modes ++ [false] }

/-- The rating selectbox write `st.session_state.ratings[i] = ...` of
`render_topic_interface` (line 145), i.e. the engine's `setDraftRating`. -/
def set_draft_rating (s : EngineState) (index : Nat) (sym : String) : EngineState :=
  { s with ratings := s.ratings.set index sym }

/-- Source `delete_topic(index)`: arms the pending deletion. -/
def delete_topic (s : EngineState) (index : Nat) : EngineState :=
  { s with pending_delete_topic := some index }

/-- Source `cancel_delete_topic()`: clears only the armed slot. -/
def cancel_delete_topic (s : EngineState) : EngineState :=
  { s with pending_delete_topic := none }

/-- Source `confirm_delete_topic(index)`: authorizes the deletion and clears
the armed slot. -/
def confirm_delete_topic (s : EngineState) (index : Nat) : EngineState :=
  { s with delete_topic_index := some index
           pending_delete_topic := none }

/-- Typed rendering of the `st.error` report of `process_topic_deletion`
("Cannot delete the last remaining topic."). -/
inductive EngineError where
  | structuralError
deriving DecidableEq

/-- The per-student body of the cascade loop in `process_topic_deletion`
(lines 120-124): `if deleted_topic in student['Topics']:` find the first
occurrence with `.index` and delete that entry from both lists. -/
def remove_topic_from_student (deleted_topic : String) (st : Student) : Student :=
  if deleted_topic ∈ st.Topics then
    let topic_index := st.Topics.findIdx (fun t => t == deleted_topic)
    { st with Topics := st.Topics.eraseIdx topic_index
              Ratings := st.Ratings.eraseIdx topic_index }
  else st

/-- Source `process_topic_deletion()`.  The second component reports the
`st.error` branch.  When the authorized index is out of range Python raises
at `topics[index]` before mutating anything, modelled by the `none` branch. -/
def process_topic_deletion (s : EngineState) : EngineState × Option EngineError :=
  match s.delete_topic_index with
  | none => (s, none)
  | some index =>
    if 1 < s.topics.length then
      match s.topics[index]? with
      | some deleted_topic =>
        ({ s with topics := s.topics.eraseIdx index
                  ratings := s.ratings.eraseIdx index
                  edit_modes := s.edit_modes.eraseIdx index
                  students := s.students.map (remove_topic_from_student deleted_topic)
                  delete_topic_index := none
                  pending_delete_topic := none }, none)
      | none => (s, none)
    else
      ({ s with delete_topic_index := none
                pending_delete_topic := none }, some EngineError.structuralError)

/-- Python `str.strip()` (no argument): drop leading and trailing whitespace. -/
def pyStrip (name : String) : String :=
  ⟨((name.data.dropWhile Char.isWhitespace).reverse.dropWhile Char.isWhitespace).reverse⟩

/-- The message of the empty-name rejection in `validate_student_name`. -/
def EmptyNameError : String := "Student name cannot be empty. Please enter a name."

/-- The message of the over-long-name rejection in `validate_student_name`. -/
def NameTooLongError : String :=
  "Student name cannot exceed " ++ toString MAX_STUDENT_NAME_LENGTH ++
    " characters. Please enter a shorter name."

/-- The message of the whitespace rejection in `validate_student_name`. -/
def WhitespaceNameError : String :=
  "Student name cannot have leading or trailing whitespaces. Please enter a valid name."

/-- The message of the duplicate-name rejection in `validate_student_name`. -/
def DuplicateNameError (name : String) : String :=
  "Student " ++ name ++ " already exists. Please enter a different name."

/-- Source `validate_student_name(name)`: four checks in order, first failure
wins, returning the error message or `None`. -/
def validate_student_name (students : List Student) (name : String) : Option String :=
  if name = "" then some EmptyNameError
  else if MAX_STUDENT_NAME_LENGTH < name.length then some NameTooLongError
  else if name ≠ pyStrip name then some WhitespaceNameError
  else if students.any (fun st => st.Name == name) then some (DuplicateNameError name)
  else none

/-- The student-submission branch of source `add_student` (lines 211-224):
validate, and on success append the record with a copy of `topics` and the
encoded ratings, clear the staged name, and reset all draft ratings. -/
def add_student (s : EngineState) (student_name : String) : EngineState × Option String :=
  match validate_student_name s.students student_name with
  | some error_message => (s, some error_message)
  | none =>
    let numerical_ratings := s.ratings.map map_rating
    ({ s with students := s.students ++
                [{ Name := student_name, Topics := s.topics, Ratings := numerical_ratings }]
              student_name := ""
              ratings := List.replicate s.topics.length DEFAULT_RATING }, none)

/-- Source `reset_data()`: clear the roster and the staged name and reset all
draft ratings; topics and edit flags are untouched. -/
def reset_data (s : EngineState) : EngineState :=
  { s with students := []
           student_name := ""
           ratings := List.replicate s.topics.length DEFAULT_RATING }

/-- Key sequence of the dict comprehension `{topic: 0 for topic in topics}` of
`generate_class_performance_chart`: distinct names in first-occurrence order
(a Python dict keeps the first insertion position of each key). -/
def dict_keys_first_occurrence (topics : List String) : List String :=
  topics.foldl (fun acc t => if t ∈ acc then acc else acc ++ [t]) []

/-- Final value of `topic_counts[t]` after the counting loop of
`generate_class_performance_chart`: the loop walks every student's
`zip(Topics, Ratings)` and increments the entry of the pair's topic when the
rating is 10, so each key's count is the number of such pairs with that name. -/
def plus_pair_count (students : List Student) (t : String) : Nat :=
  (students.map fun st =>
    (st.Topics.zip st.Ratings).countP (fun p => p.1 == t && p.2 == 10)).sum

/-- Sort order of `df.sort_values("Number of '+' Ratings", ascending=False)`:
larger count first. -/
def byCountDesc (a b : String × Nat) : Prop := b.2 ≤ a.2

instance : DecidableRel byCountDesc := fun a b => Nat.decLe b.2 a.2

instance : IsTotal (String × Nat) byCountDesc := ⟨fun a b => Nat.le_total b.2 a.2⟩

instance : IsTrans (String × Nat) byCountDesc :=
  ⟨fun _ _ _ hab hbc => Nat.le_trans hbc hab⟩

/-- Source `generate_class_performance_chart()`: `None` models the early
"No students added yet" return; otherwise the rows of the sorted dataframe.
The source sorts with `df.sort_values("Number of Plus Ratings",
ascending=False)` under the default `kind='quicksort'`, which pandas
documents as NOT stable: the source promises only some count-descending
reordering of the rows and fixes no order among tied counts.  To keep the
model executable one concrete such reordering (insertion sort) is used here;
theorems about this function rely only on the properties shared by every
count-descending reordering — being a permutation of the rows and being
sorted by count descending — never on this sort's particular tie order. -/
def generate_class_performance_chart (s : EngineState) : Option (List (String × Nat)) :=
  if s.students.isEmpty then none
  else
    let keys := dict_keys_first_occurrence s.topics
    let rows := keys.map (fun t => (t, plus_pair_count s.students t))
    some (List.insertionSort byCountDesc rows)

/-- Source `generate_individual_performance_chart(student)`: the two filtered
comprehensions feeding the radar chart (`theta = topics`, `r = ratings`). -/
def generate_individual_performance_chart (s : EngineState) (student : Student) :
    List String × List Nat :=
  let current_topics := s.topics
  let topics := student.Topics.filter (fun t => current_topics.contains t)
  let ratings := ((student.Topics.zip student.Ratings).filter
      (fun p => current_topics.contains p.1)).map Prod.snd
  (topics, ratings)

/-- The engine's command alphabet (spec section 6). -/
inductive Op where
  | addTopic
  | toggleEdit (i : Nat)
  | commitEdit (i : Nat) (newName : String)
  | setDraftRating (i : Nat) (sym : String)
  | armDelete (i : Nat)
  | cancelDelete
  | confirmDelete (i : Nat)
  | applyPendingDeletion
  | submit (name : String)
  | reset

/-- One engine command applied to the state. -/
def step (s : EngineState) : Op → EngineState
  | .addTopic => add_new_topic s
  | .toggleEdit i => toggle_edit_mode s i
  | .commitEdit i n => confirm_topic_edit s i n
  | .setDraftRating i sym => set_draft_rating s i sym
  | .armDelete i => delete_topic s i
  | .cancelDelete => cancel_delete_topic s
  | .confirmDelete i => confirm_delete_topic s i
  | .applyPendingDeletion => (process_topic_deletion s).1
  | .submit name => (add_student s name).1
  | .reset => reset_data s

/-- A command sequence run from the initial state. -/
def run (ops : List Op) : EngineState := ops.foldl step initialState

/-- C10: reset_data empties the roster, resets every draft rating to the
default symbol, and leaves the topic names, their order, and the editing
flags unchanged. -/
theorem reset_data_frame (s : EngineState) :
    (reset_data s).students = []
    ∧ (reset_data s).ratings.length = s.topics.length
    ∧ (∀ r ∈ (reset_data s).ratings, r = DEFAULT_RATING)
    ∧ (reset_data s).topics = s.topics
    ∧ (reset_data s).edit_modes = s.edit_modes := by
  refine ⟨rfl, ?_, ?_, rfl, rfl⟩
  · simp [reset_data]
  · intro r hr
    exact List.eq_of_mem_replicate hr

/-- C9: after addTopic, confirmDelete 0, applyPendingDeletion, addTopic the
registry holds two topics both named "Topic 2": topic-name uniqueness is not
an invariant of the engine. -/
theorem duplicate_topic_names_reachable :
    (run [Op.addTopic, Op.confirmDelete 0, Op.applyPendingDeletion, Op.addTopic]).topics
      = ["Topic 2", "Topic 2"]
    ∧ ¬ (run [Op.addTopic, Op.confirmDelete 0,
          Op.applyPendingDeletion, Op.addTopic]).topics.Nodup := by
  constructor
  · rfl
  · decide

/-- C6: cancel_delete_topic clears only the armed slot, not the authorized
deletion index, so running process_topic_deletion after it gives exactly the
same result as running process_topic_deletion directly. -/
theorem cancel_delete_does_not_revoke (s : EngineState) (i : Nat)
    (hauth : s.delete_topic_index = some i) (hi : i < s.topics.length) :
    process_topic_deletion (cancel_delete_topic s) = process_topic_deletion s := by
  have hget : s.topics[i]? = some s.topics[i] := List.getElem?_eq_getElem hi
  simp only [process_topic_deletion, cancel_delete_topic, hauth, hget]

/-- Witness for C6 at a concrete two-topic state with an authorized deletion. -/
theorem cancel_delete_does_not_revoke_witness :
    (confirm_delete_topic (add_new_topic initialState) 0).delete_topic_index = some 0
    ∧ 0 < (confirm_delete_topic (add_new_topic initialState) 0).topics.length
    ∧ process_topic_deletion
        (cancel_delete_topic (confirm_delete_topic (add_new_topic initialState) 0))
      = process_topic_deletion (confirm_delete_topic (add_new_topic initialState) 0) :=
  ⟨rfl, by decide,
    cancel_delete_does_not_revoke (confirm_delete_topic (add_new_topic initialState) 0) 0
      rfl (by decide)⟩

/-- Invariant tying the three topic sequences together: draft ratings and
edit flags are index-aligned with the topic names, and the registry is never
empty. -/
def EngineInv (s : EngineState) : Prop :=
  s.ratings.length = s.topics.length
    ∧ s.edit_modes.length = s.topics.length
    ∧ 0 < s.topics.length

theorem engineInv_initial : EngineInv initialState := by
  refine ⟨rfl, rfl, ?_⟩
  decide

theorem engineInv_step (s : EngineState) (op : Op) (h : EngineInv s) :
    EngineInv (step s op) := by
  obtain ⟨h1, h2, h3⟩ := h
  cases op with
  | addTopic =>
    simp [step, add_new_topic, EngineInv, h1, h2]
  | toggleEdit i =>
    simpa [step, toggle_edit_mode, EngineInv, h1, h2] using h3
  | commitEdit i n =>
    simpa [step, confirm_topic_edit, EngineInv, h1, h2] using h3
  | setDraftRating i sym =>
    simpa [step, set_draft_rating, EngineInv, h1, h2] using h3
  | armDelete i =>
    exact ⟨h1, h2, h3⟩
  | cancelDelete =>
    exact ⟨h1, h2, h3⟩
  | confirmDelete i =>
    exact ⟨h1, h2, h3⟩
  | applyPendingDeletion =>
    simp only [step, process_topic_deletion]
    cases hd : s.delete_topic_index with
    | none => exact ⟨h1, h2, h3⟩
    | some index =>
      simp only
      split
      · rename_i hlen
        cases hget : s.topics[index]? with
        | none => exact ⟨h1, h2, h3⟩
        | some t =>
          have hidx : index < s.topics.length := by
            have := List.getElem?_eq_some.mp hget
            exact this.1
          refine ⟨?_, ?_, ?_⟩ <;>
            simp [List.length_eraseIdx, hidx, h1 ▸ hidx, h2 ▸ hidx, h1, h2] <;>
            omega
      · exact ⟨h1, h2, h3⟩
  | submit name =>
    simp only [step, add_student]
    cases hv : validate_student_name s.students name with
    | some msg => exact ⟨h1, h2, h3⟩
    | none => exact ⟨by simp, h2, h3⟩
  | reset =>
    exact ⟨by simp [step, reset_data], h2, h3⟩

theorem engineInv_foldl (ops : List Op) (s : EngineState) (h : EngineInv s) :
    EngineInv (ops.foldl step s) := by
  induction ops generalizing s with
  | nil => exact h
  | cons op rest ih => exact ih (step s op) (engineInv_step s op h)

theorem engineInv_run (ops : List Op) : EngineInv (run ops) :=
  engineInv_foldl ops initialState engineInv_initial

/-- C7: after every sequence of engine operations the topic-name, draft-rating
and editing-flag sequences have the same length, hence stay index-aligned. -/
theorem sequences_stay_aligned (ops : List Op) :
    (run ops).ratings.length = (run ops).topics.length
    ∧ (run ops).edit_modes.length = (run ops).topics.length :=
  ⟨(engineInv_run ops).1, (engineInv_run ops).2.1⟩

/-- C3: with a deletion authorized and exactly one topic in the registry,
process_topic_deletion leaves the topic, rating and edit sequences and the
roster unchanged, reports the structural error, and clears both deletion
flags; moreover after every operation sequence at least one topic exists. -/
theorem last_topic_deletion_guard :
    (∀ (s : EngineState) (i : Nat), s.delete_topic_index = some i →
      s.topics.length = 1 →
      process_topic_deletion s
        = ({ s with delete_topic_index := none, pending_delete_topic := none },
           some EngineError.structuralError))
    ∧ ∀ ops : List Op, (run ops).topics ≠ [] := by
  constructor
  · intro s i hauth hlen
    simp [process_topic_deletion, hauth, hlen]
  · intro ops
    exact List.length_pos.mp (engineInv_run ops).2.2

/-- Witness for C3: the initial state with an authorized deletion of its only
topic, and the empty operation sequence. -/
theorem last_topic_deletion_guard_witness :
    (confirm_delete_topic initialState 0).delete_topic_index = some 0
    ∧ (confirm_delete_topic initialState 0).topics.length = 1
    ∧ process_topic_deletion (confirm_delete_topic initialState 0)
        = ({ confirm_delete_topic initialState 0 with
              delete_topic_index := none, pending_delete_topic := none },
           some EngineError.structuralError)
    ∧ (run []).topics ≠ [] :=
  ⟨rfl, rfl, last_topic_deletion_guard.1 (confirm_delete_topic initialState 0) 0 rfl rfl,
    last_topic_deletion_guard.2 []⟩

theorem zip_of_maps_eq {α β : Type} (l : List (α × β)) :
    (l.map Prod.fst).zip (l.map Prod.snd) = l := by
  induction l with
  | nil => rfl
  | cons p rest ih => simp [ih]

theorem zip_eraseIdx_eq {α β : Type} :
    ∀ (i : Nat) (l1 : List α) (l2 : List β),
      (l1.eraseIdx i).zip (l2.eraseIdx i) = (l1.zip l2).eraseIdx i := by
  intro i
  induction i with
  | zero =>
    intro l1 l2
    cases l1 with
    | nil => simp
    | cons a t1 =>
      cases l2 with
      | nil => simp
      | cons b t2 => simp
  | succ j ih =>
    intro l1 l2
    cases l1 with
    | nil => simp
    | cons a t1 =>
      cases l2 with
      | nil => simp
      | cons b t2 => simp [ih t1 t2]

theorem filter_eq_map_fst_filter_zip {α β : Type} (p : α → Bool) :
    ∀ (l1 : List α) (l2 : List β), l1.length = l2.length →
      l1.filter p = ((l1.zip l2).filter (fun q => p q.1)).map Prod.fst := by
  intro l1
  induction l1 with
  | nil => intro l2 _; simp
  | cons a t1 ih =>
    intro l2 h
    cases l2 with
    | nil => simp at h
    | cons b t2 =>
      simp only [List.length_cons, Nat.succ.injEq] at h
      by_cases hp : p a
      · simp [List.filter_cons, hp, ih t2 h]
      · simp [List.filter_cons, hp, ih t2 h]

/-- C8: for an aligned student record, the radar-chart series is exactly the
student's stored pairs whose topic is still in the registry, in stored order
and pairwise aligned. -/
theorem individual_performance_filters (s : EngineState) (student : Student)
    (h : student.Topics.length = student.Ratings.length) :
    (generate_individual_performance_chart s student).1.zip
        (generate_individual_performance_chart s student).2
      = (student.Topics.zip student.Ratings).filter (fun p => s.topics.contains p.1)
    ∧ (generate_individual_performance_chart s student).1.length
      = (generate_individual_performance_chart s student).2.length := by
  have hfst : student.Topics.filter (fun t => s.topics.contains t)
      = ((student.Topics.zip student.Ratings).filter
          (fun p => s.topics.contains p.1)).map Prod.fst :=
    filter_eq_map_fst_filter_zip (fun t => s.topics.contains t) student.Topics
      student.Ratings h
  constructor
  · simp only [generate_individual_performance_chart, hfst]
    exact zip_of_maps_eq _
  · simp only [generate_individual_performance_chart, hfst]
    simp

/-- Witness for C8 at a concrete registry and student with a removed topic. -/
theorem individual_performance_filters_witness :
    (let s : EngineState := { students := []
                              student_name := ""
                              topics := ["Topic 1", "Topic 3"]
                              ratings := ["-", "-"]
                              edit_modes := [false, false]
                              delete_topic_index := none
                              pending_delete_topic := none }
     let student : Student := { Name := "Al"
                                Topics := ["Topic 1", "Topic 2", "Topic 3"]
                                Ratings := [10, 5, 0] }
     student.Topics.length = student.Ratings.length
     ∧ ((generate_individual_performance_chart s student).1.zip
          (generate_individual_performance_chart s student).2
        = (student.Topics.zip student.Ratings).filter (fun p => s.topics.contains p.1)
       ∧ (generate_individual_performance_chart s student).1.length
         = (generate_individual_performance_chart s student).2.length)) :=
  ⟨rfl, individual_performance_filters _ _ rfl⟩

/-- C2: with at least two topics and an authorized valid index whose topic is
named T, process_topic_deletion erases the topic, draft-rating and edit-flag
entries at that index, and rewrites every student through
remove_topic_from_student T, which for an aligned record containing T erases
exactly the pair at T's first occurrence (and leaves records without T
untouched). -/
theorem apply_deletion_cascades (s : EngineState) (i : Nat) (T : String)
    (hauth : s.delete_topic_index = some i)
    (hlen : 1 < s.topics.length)
    (hT : s.topics[i]? = some T) :
    ((process_topic_deletion s).1.topics = s.topics.eraseIdx i
      ∧ (process_topic_deletion s).1.ratings = s.ratings.eraseIdx i
      ∧ (process_topic_deletion s).1.edit_modes = s.edit_modes.eraseIdx i
      ∧ (process_topic_deletion s).1.students
          = s.students.map (remove_topic_from_student T))
    ∧ ∀ st : Student, st.Topics.length = st.Ratings.length →
        (T ∉ st.Topics → remove_topic_from_student T st = st)
        ∧ (T ∈ st.Topics →
            (st.Topics.findIdx (fun t => t == T) < st.Topics.length
              ∧ st.Topics[st.Topics.findIdx (fun t => t == T)]? = some T
              ∧ ∀ k, k < st.Topics.findIdx (fun t => t == T) → st.Topics[k]? ≠ some T)
            ∧ (remove_topic_from_student T st).Topics.zip
                  (remove_topic_from_student T st).Ratings
                = (st.Topics.zip st.Ratings).eraseIdx
                    (st.Topics.findIdx (fun t => t == T))
            ∧ (remove_topic_from_student T st).Topics.length = st.Topics.length - 1
            ∧ (remove_topic_from_student T st).Topics.length
                = (remove_topic_from_student T st).Ratings.length) := by
  constructor
  · refine ⟨?_, ?_, ?_, ?_⟩ <;> simp [process_topic_deletion, hauth, hlen, hT]
  · intro st hst
    constructor
    · intro hnot
      simp [remove_topic_from_student, hnot]
    · intro hmem
      have hex : ∃ x ∈ st.Topics, (x == T) = true := ⟨T, hmem, by simp⟩
      have hjlt : st.Topics.findIdx (fun t => t == T) < st.Topics.length :=
        List.findIdx_lt_length_of_exists hex
      have hjget : st.Topics[st.Topics.findIdx (fun t => t == T)]? = some T := by
        have hp := @List.findIdx_getElem _ _ _ hjlt
        have : st.Topics[st.Topics.findIdx (fun t => t == T)] = T := by
          simpa using hp
        rw [List.getElem?_eq_getElem hjlt, this]
      have hfirst : ∀ k, k < st.Topics.findIdx (fun t => t == T) →
          st.Topics[k]? ≠ some T := by
        intro k hk
        have hkl : k < st.Topics.length :=
          Nat.lt_of_lt_of_le hk (List.findIdx_le_length (fun t => t == T))
        have hne := List.not_of_lt_findIdx hk
        rw [List.getElem?_eq_getElem hkl]
        intro hcontra
        have : st.Topics[k] = T := by simpa using hcontra
        simp [this] at hne
      have hunfold : remove_topic_from_student T st =
          { st with Topics := st.Topics.eraseIdx (st.Topics.findIdx (fun t => t == T))
                    Ratings := st.Ratings.eraseIdx (st.Topics.findIdx (fun t => t == T)) } := by
        simp [remove_topic_from_student, hmem]
      refine ⟨⟨hjlt, hjget, hfirst⟩, ?_, ?_, ?_⟩
      · rw [hunfold]
        exact zip_eraseIdx_eq _ _ _
      · rw [hunfold]
        simpa using List.length_eraseIdx_of_lt hjlt
      · rw [hunfold]
        simp only [List.length_eraseIdx_of_lt hjlt,
          List.length_eraseIdx_of_lt (hst ▸ hjlt), hst]

/-- Witness for C2 at a concrete two-topic registry and one student whose
snapshot contains the deleted name twice. -/
theorem apply_deletion_cascades_witness :
    (let al : Student := { Name := "Al"
                           Topics := ["Topic 1", "Topic 2", "Topic 1"]
                           Ratings := [10, 5, 0] }
     let s0 : EngineState := { students := [al]
                               student_name := ""
                               topics := ["Topic 1", "Topic 2"]
                               ratings := ["-", "-"]
                               edit_modes := [false, false]
                               delete_topic_index := some 0
                               pending_delete_topic := none }
     (process_topic_deletion s0).1.students
        = s0.students.map (remove_topic_from_student "Topic 1")
     ∧ (remove_topic_from_student "Topic 1" al).Topics.zip
          (remove_topic_from_student "Topic 1" al).Ratings
        = (al.Topics.zip al.Ratings).eraseIdx
            (al.Topics.findIdx (fun t => t == "Topic 1"))) := by
  intro al s0
  have h := apply_deletion_cascades s0 0 "Topic 1" rfl (by decide) rfl
  exact ⟨h.1.2.2.2, ((h.2 al rfl).2 (by decide)).2.1⟩

/-- C4: validate_student_name applies its four checks in order with first
failure winning — empty name, then over-long name, then untrimmed name, then
exact duplicate — and any rejection makes add_student return the error with
the whole state unchanged. -/
theorem submit_validation_order (s : EngineState) (name : String) :
    (name = "" → validate_student_name s.students name = some EmptyNameError)
    ∧ (name ≠ "" → MAX_STUDENT_NAME_LENGTH < name.length →
        validate_student_name s.students name = some NameTooLongError)
    ∧ (name ≠ "" → name.length ≤ MAX_STUDENT_NAME_LENGTH → name ≠ pyStrip name →
        validate_student_name s.students name = some WhitespaceNameError)
    ∧ (name ≠ "" → name.length ≤ MAX_STUDENT_NAME_LENGTH → name = pyStrip name →
        (∃ st ∈ s.students, st.Name = name) →
        validate_student_name s.students name = some (DuplicateNameError name))
    ∧ (∀ e, validate_student_name s.students name = some e →
        add_student s name = (s, some e)) := by
  refine ⟨?_, ?_, ?_, ?_, ?_⟩
  · intro h
    simp [validate_student_name, h]
  · intro h1 h2
    simp [validate_student_name, h1, h2]
  · intro h1 h2 h3
    simp [validate_student_name, h1, Nat.not_lt.mpr h2, h3]
  · intro h1 h2 h3 h4
    have hany : s.students.any (fun st => st.Name == name) = true := by
      rw [List.any_eq_true]
      obtain ⟨st, hmem, hn⟩ := h4
      exact ⟨st, hmem, by simp [hn]⟩
    have hns : ¬(name ≠ pyStrip name) := fun hc => hc h3
    simp [validate_student_name, h1, Nat.not_lt.mpr h2, hns, hany]
  · intro e he
    simp [add_student, he]

set_option maxRecDepth 4000 in
/-- Witness for C4: each rejection kind at a concrete one-student roster, and
the unchanged-state frame for the empty-name rejection. -/
theorem submit_validation_order_witness :
    (let bob : Student := { Name := "Bob", Topics := ["Topic 1"], Ratings := [0] }
     let s : EngineState := { students := [bob]
                              student_name := ""
                              topics := ["Topic 1"]
                              ratings := ["-"]
                              edit_modes := [false]
                              delete_topic_index := none
                              pending_delete_topic := none }
     validate_student_name s.students "" = some EmptyNameError
     ∧ validate_student_name s.students (String.mk (List.replicate 129 'a'))
         = some NameTooLongError
     ∧ validate_student_name s.students " Bob" = some WhitespaceNameError
     ∧ validate_student_name s.students "Bob" = some (DuplicateNameError "Bob")
     ∧ add_student s "" = (s, some EmptyNameError)) := by
  intro bob s
  refine ⟨(submit_validation_order s "").1 rfl,
    (submit_validation_order s (String.mk (List.replicate 129 'a'))).2.1
      (by decide) (by decide),
    (submit_validation_order s " Bob").2.2.1 (by decide) (by decide) (by decide),
    (submit_validation_order s "Bob").2.2.2.1 (by decide) (by decide) (by decide)
      ⟨bob, by simp [s], rfl⟩,
    (submit_validation_order s "").2.2.2.2 EmptyNameError
      ((submit_validation_order s "").1 rfl)⟩

/-- C5: a valid submission appends exactly one record snapshotting the current
topics with the Codec-encoded draft ratings (aligned, each value in 0, 5, 10),
resets every draft rating to the default symbol, and later renames through
confirm_topic_edit leave the stored records untouched. -/
theorem submit_success_snapshot (s : EngineState) (name : String)
    (hv : validate_student_name s.students name = none)
    (hal : s.ratings.length = s.topics.length) :
    (add_student s name).2 = none
    ∧ (add_student s name).1.students
        = s.students ++
            [{ Name := name, Topics := s.topics, Ratings := s.ratings.map map_rating }]
    ∧ (s.ratings.map map_rating).length = s.topics.length
    ∧ (∀ r ∈ s.ratings.map map_rating, r = 0 ∨ r = 5 ∨ r = 10)
    ∧ (add_student s name).1.ratings = List.replicate s.topics.length DEFAULT_RATING
    ∧ ∀ (j : Nat) (newName : String),
        (confirm_topic_edit (add_student s name).1 j newName).students
          = (add_student s name).1.students := by
  refine ⟨?_, ?_, ?_, ?_, ?_, ?_⟩
  · simp [add_student, hv]
  · simp [add_student, hv]
  · simp [hal]
  · intro r hr
    obtain ⟨x, _, hx⟩ := List.mem_map.mp hr
    subst hx
    simp only [map_rating]
    split
    · simp
    · split
      · simp
      · split <;> simp
  · simp [add_student, hv]
  · intro j newName
    rfl

/-- Witness for C5: submitting "Bob" in the initial state. -/
theorem submit_success_snapshot_witness :
    validate_student_name initialState.students "Bob" = none
    ∧ initialState.ratings.length = initialState.topics.length
    ∧ (add_student initialState "Bob").1.students
        = initialState.students ++
            [{ Name := "Bob", Topics := initialState.topics,
               Ratings := initialState.ratings.map map_rating }]
    ∧ (add_student initialState "Bob").1.ratings
        = List.replicate initialState.topics.length DEFAULT_RATING :=
  ⟨by decide, rfl,
    (submit_success_snapshot initialState "Bob" (by decide) rfl).2.1,
    (submit_success_snapshot initialState "Bob" (by decide) rfl).2.2.2.2.1⟩

theorem foldl_keys_mem (l : List String) : ∀ (acc : List String) (x : String),
    (x ∈ l.foldl (fun acc t => if t ∈ acc then acc else acc ++ [t]) acc)
      ↔ (x ∈ acc ∨ x ∈ l) := by
  induction l with
  | nil =>
    intro acc x
    simp
  | cons t rest ih =>
    intro acc x
    simp only [List.foldl_cons]
    rw [ih]
    by_cases hmem : t ∈ acc
    · simp only [if_pos hmem, List.mem_cons]
      constructor
      · rintro (h | h)
        · exact Or.inl h
        · exact Or.inr (Or.inr h)
      · rintro (h | h | h)
        · exact Or.inl h
        · exact Or.inl (h ▸ hmem)
        · exact Or.inr h
    · simp only [if_neg hmem, List.mem_append, List.mem_singleton, List.mem_cons]
      tauto

theorem foldl_keys_nodup (l : List String) : ∀ acc : List String, acc.Nodup →
    (l.foldl (fun acc t => if t ∈ acc then acc else acc ++ [t]) acc).Nodup := by
  induction l with
  | nil =>
    intro acc h
    simpa using h
  | cons t rest ih =>
    intro acc h
    simp only [List.foldl_cons]
    apply ih
    by_cases hmem : t ∈ acc
    · simpa [hmem] using h
    · rw [if_neg hmem, ← List.concat_eq_append]
      exact h.concat hmem

/-- C1 (amended): for a non-empty roster the chart has one row per distinct
topic name of the registry (duplicate names merged into a single entry), each
row's count is the number of stored (topic, rating) pairs with that name and
rating 10, and the rows are a permutation of those per-name rows sorted by
count descending.  No order among tied counts is asserted: the source's
`sort_values` call uses the default quicksort, which pandas does not document
as stable, so the source fixes no tie order. -/
theorem class_performance_aggregates (s : EngineState) (h : s.students ≠ []) :
    ∃ l : List (String × Nat),
      generate_class_performance_chart s = some l
      ∧ (dict_keys_first_occurrence s.topics).Nodup
      ∧ (∀ t : String, t ∈ dict_keys_first_occurrence s.topics ↔ t ∈ s.topics)
      ∧ l.Perm ((dict_keys_first_occurrence s.topics).map
            (fun t => (t, plus_pair_count s.students t)))
      ∧ l.Pairwise (fun a b => b.2 ≤ a.2) := by
  have hne : s.students.isEmpty = false := by
    rw [List.isEmpty_eq_false]
    exact h
  refine ⟨List.insertionSort byCountDesc
      ((dict_keys_first_occurrence s.topics).map
        (fun t => (t, plus_pair_count s.students t))), ?_, ?_, ?_, ?_, ?_⟩
  · simp [generate_class_performance_chart, hne]
  · exact foldl_keys_nodup s.topics [] List.nodup_nil
  · intro t
    have := foldl_keys_mem s.topics [] t
    simpa [dict_keys_first_occurrence] using this
  · exact List.perm_insertionSort byCountDesc _
  · exact List.sorted_insertionSort byCountDesc _

/-- Witness for C1 at a concrete one-student, one-topic state. -/
theorem class_performance_aggregates_witness :
    (let sW : EngineState := { students := [{ Name := "Bob"
                                              Topics := ["Topic 1"]
                                              Ratings := [10] }]
                               student_name := ""
                               topics := ["Topic 1"]
                               ratings := ["-"]
                               edit_modes := [false]
                               delete_topic_index := none
                               pending_delete_topic := none }
     sW.students ≠ []
     ∧ ∃ l : List (String × Nat),
        generate_class_performance_chart sW = some l
        ∧ (dict_keys_first_occurrence sW.topics).Nodup
        ∧ (∀ t : String, t ∈ dict_keys_first_occurrence sW.topics ↔ t ∈ sW.topics)
        ∧ l.Perm ((dict_keys_first_occurrence sW.topics).map
              (fun t => (t, plus_pair_count sW.students t)))
        ∧ l.Pairwise (fun a b => b.2 ≤ a.2)) := by
  intro sW
  exact ⟨by decide, class_performance_aggregates sW (by decide)⟩

/-- Counterexample to C1 as stated: a reachable state whose registry holds two
topics (both named "Topic 2") and one student, yet the chart has a single row,
and that row's count is 2 although only one student exists — the chart merges
duplicate names and counts pairs, not students. -/
theorem class_performance_claim_counterexample :
    (let s : EngineState := run [Op.addTopic, Op.confirmDelete 0,
        Op.applyPendingDeletion, Op.addTopic,
        Op.setDraftRating 0 "+", Op.setDraftRating 1 "+", Op.submit "Al"]
     s.students.length = 1
     ∧ s.topics = ["Topic 2", "Topic 2"]
     ∧ generate_class_performance_chart s = some [("Topic 2", 2)]) := by
  decide
